import Mathlib

/-!
Verification of the row-normalization core of the AWS-TLQ-Pipeline repository
(`src/transform.py`): the field resolver `_pick`, the duration parser
`_parse_duration`, the categorizers `_popularity_tier`, `_danceability_label`,
`_energy_label`, `_explicit_label`, the numeric coercion `_safe_float`, and the
orchestrating `_transform_row`.

Modelling conventions:
* Python runtime values flowing through the normalizer are modelled by `PyVal`
  (None, str, int, float); Python floats are modelled exactly as rationals `ℚ`.
* A `RawRecord` (a CSV row dict) is an association list from column-name
  strings to `PyVal`s; Python dict lookup is association-list lookup (dict keys
  are unique, so first-match lookup agrees).
* The Python builtin `float(string)` is modelled by `pyFloat?` on the decimal
  literal grammar `[ws] [sign] (digits [. digits] | . digits) [(e|E) [sign]
  digits] [ws]`; the `inf`/`nan` spellings and `_` digit separators, which no
  input of interest uses, are outside the model (they make `pyFloat?` return
  `none` where Python would succeed, and none of the theorems below depend on
  such inputs).
* `str.strip()` is modelled over the ASCII whitespace characters, and
  `str.lower()` over the ASCII letters, which covers every string the
  normalizer compares against.
-/

/-- A Python runtime value as it can appear in a raw CSV row or as a parsing
result inside `transform.py`: `None`, a string, an int, or a float (modelled
exactly as a rational). -/
inductive PyVal where
  | vnone : PyVal
  | vstr (s : String) : PyVal
  | vint (n : Int) : PyVal
  | vfloat (q : ℚ) : PyVal
deriving DecidableEq, Repr

/-- A RawRecord: one CSV row, a mapping from column names to values
(`csv.DictReader` yields string values; `None` can appear as a rest-value). -/
abbrev Row := List (String × PyVal)

/-- Python ASCII whitespace (the characters `str.strip()` removes, restricted
to ASCII), by code point: space 32, tab 9, newline 10, carriage return 13,
vertical tab 11, form feed 12. -/
def isPyWs (c : Char) : Bool :=
  c.toNat = 32 || c.toNat = 9 || c.toNat = 10 || c.toNat = 13 || c.toNat = 11 || c.toNat = 12

/-- Python `str.strip()` on a list of characters: drop whitespace from the
left, then from the right. -/
def stripList (l : List Char) : List Char :=
  List.rdropWhile isPyWs (l.dropWhile isPyWs)

/-- Python `str.strip()`. -/
def pyStrip (s : String) : String := ⟨stripList s.data⟩

/-- Python `str.lower()` on one character (ASCII range: `A`-`Z` shift by 32,
everything else unchanged). -/
def pyCharLower (c : Char) : Char :=
  if 65 ≤ c.toNat ∧ c.toNat ≤ 90 then Char.ofNat (c.toNat + 32) else c

/-- Python `str.lower()` (ASCII range). -/
def pyLower (s : String) : String := ⟨s.data.map pyCharLower⟩

/-- Python `str(v)` for the values the normalizer stringifies. `str(None)`
is `"None"`; ints print as in Lean. The float case is an approximation of
the CPython shortest-roundtrip repr; no theorem below evaluates it. -/
def pyStr : PyVal → String
  | .vnone => "None"
  | .vstr s => s
  | .vint n => toString n
  | .vfloat q => toString q

/-- Value of a digit run, most significant first (`foldl`, base 10). -/
def digitsVal (cs : List Char) : Nat :=
  cs.foldl (fun a c => a * 10 + (c.toNat - 48)) 0

/-- Consume an optional leading sign; return the sign (`1` or `-1`) and the
remaining characters. -/
def parseSign : List Char → Int × List Char
  | '+' :: cs => (1, cs)
  | '-' :: cs => (-1, cs)
  | cs => (1, cs)

/-- Consume the mantissa of a float literal: `digits [. digits]` or
`. digits`; at least one digit overall. Returns its value and the rest. -/
def parseMantissa (cs : List Char) : Option (ℚ × List Char) :=
  let ip := cs.takeWhile Char.isDigit
  let rest := cs.dropWhile Char.isDigit
  match rest with
  | '.' :: rest2 =>
    let fp := rest2.takeWhile Char.isDigit
    let rest3 := rest2.dropWhile Char.isDigit
    if ip.isEmpty && fp.isEmpty then none
    else some ((digitsVal ip : ℚ) + (digitsVal fp : ℚ) / (10 : ℚ) ^ fp.length, rest3)
  | _ => if ip.isEmpty then none else some ((digitsVal ip : ℚ), rest)

/-- Consume an optional exponent part `(e|E) [sign] digits`; return the signed
exponent and the rest (exponent `0` when no `e`/`E` follows). -/
def parseExpPart : List Char → Option (Int × List Char)
  | [] => some (0, [])
  | c :: cs =>
    if c = 'e' || c = 'E' then
      let (sg, cs2) := parseSign cs
      let ds := cs2.takeWhile Char.isDigit
      let rest := cs2.dropWhile Char.isDigit
      if ds.isEmpty then none else some (sg * (digitsVal ds : Int), rest)
    else some (0, c :: cs)

/-- Model of the Python builtin `float : str → float` on decimal literals
(see the module docstring for the scope of the model): strip whitespace, optional
sign, mantissa, optional exponent, and nothing may remain. Returns `none`
where Python raises `ValueError`. -/
def pyFloat? (s : String) : Option ℚ :=
  let cs := (pyStrip s).data
  let (sg, cs1) := parseSign cs
  match parseMantissa cs1 with
  | none => none
  | some (m, cs2) =>
    match parseExpPart cs2 with
    | none => none
    | some (e, cs3) =>
      if cs3.isEmpty then
        let mag : ℚ := if 0 ≤ e then m * (10 : ℚ) ^ e.toNat else m / (10 : ℚ) ^ (-e).toNat
        some ((sg : ℚ) * mag)
      else none

/-- `_safe_float` from `src/transform.py`: `float(x)`, with any failure
(`None` input, unparsable string) recovered as `None`. -/
def safe_float : PyVal → Option ℚ
  | .vnone => none
  | .vstr s => pyFloat? s
  | .vint n => some (n : ℚ)
  | .vfloat q => some q

/-- Python `str.split(sep)` for a one-character separator: splits on every
occurrence, keeping empty pieces (so `":".split(":") = ["", ""]`). -/
def splitOnChar (c : Char) : List Char → List (List Char)
  | [] => [[]]
  | a :: rest =>
    let r := splitOnChar c rest
    if a = c then [] :: r
    else
      match r with
      | h :: t => (a :: h) :: t
      | [] => [[a]]

/-- The colon-clock branch of `_parse_duration`: when the string contains a
colon, split on `:`, strip each part, and interpret three parts as
`H*60 + M + S/60` and two parts as `M + S/60`; any failed component parse, or
a part count other than 2 or 3, falls through (returns `none`). -/
def colonParse (s : String) : Option ℚ :=
  if s.data.contains ':' then
    match (splitOnChar ':' s.data).map (fun cs => pyStrip ⟨cs⟩) with
    | [h, m, sec] =>
      match pyFloat? h, pyFloat? m, pyFloat? sec with
      | some hq, some mq, some sq => some (hq * 60 + mq + sq / 60)
      | _, _, _ => none
    | [m, sec] =>
      match pyFloat? m, pyFloat? sec with
      | some mq, some sq => some (mq + sq / 60)
      | _, _ => none
    | _ => none
  else none

/-- `_parse_duration` from `src/transform.py`: `None` for a null input;
stringify and strip, `None` when empty; then try the colon-clock form, then a
direct `float(s)` as minutes, then the same `float(s)` reinterpreted as
milliseconds when it exceeds 1000; `None` when everything fails. -/
def parse_duration (val : PyVal) : Option ℚ :=
  if val = .vnone then none
  else
    let s := pyStrip (pyStr val)
    if s = "" then none
    else
      match colonParse s with
      | some r => some r
      | none =>
        match pyFloat? s with
        | some f => some f
        | none =>
          match pyFloat? s with
          | some ms => if ms > 1000 then some (ms / 1000 / 60) else none
          | none => none

/-- `_parse_duration` with its third (milliseconds-magnitude) attempt removed:
the comparison point for the unreachability claim. -/
def parse_duration_no_ms (val : PyVal) : Option ℚ :=
  if val = .vnone then none
  else
    let s := pyStrip (pyStr val)
    if s = "" then none
    else
      match colonParse s with
      | some r => some r
      | none =>
        match pyFloat? s with
        | some f => some f
        | none => none

/-- `_popularity_tier` from `src/transform.py`. -/
def popularity_tier : Option ℚ → String
  | none => "Unknown"
  | some p => if p ≥ 70 then "High" else if p ≥ 40 then "Medium" else "Low"

/-- `_danceability_label` from `src/transform.py`. -/
def danceability_label : Option ℚ → String
  | none => "Unknown"
  | some d => if d ≥ 75 then "Very Danceable" else if d ≥ 50 then "Danceable" else "Low"

/-- `_energy_label` from `src/transform.py`. -/
def energy_label : Option ℚ → String
  | none => "Unknown"
  | some e => if e ≥ 70 then "High" else if e ≥ 40 then "Medium" else "Low"

/-- The truthy strings of `_explicit_label`. -/
def explicitTrueStrs : List String := ["true", "t", "yes", "y", "1", "explicit"]

/-- The falsy strings of `_explicit_label`. -/
def explicitFalseStrs : List String := ["false", "f", "no", "n", "0", "clean"]

/-- `_explicit_label` from `src/transform.py`: `None → "Clean"`; a numeric
value is `"Explicit"` iff non-zero; otherwise stringify, strip and lowercase,
and compare against the truthy and falsy sets, defaulting to `"Clean"`. -/
def explicit_label : PyVal → String
  | .vnone => "Clean"
  | .vint n => if n ≠ 0 then "Explicit" else "Clean"
  | .vfloat q => if q ≠ 0 then "Explicit" else "Clean"
  | .vstr v =>
    let s := pyLower (pyStrip v)
    if s ∈ explicitTrueStrs then "Explicit"
    else if s ∈ explicitFalseStrs then "Clean"
    else "Clean"

/-- The truth value of the Python test `v not in (None, "")` on a row value: the
value counts as usable iff it is neither `None` nor the empty string. -/
def nonEmptyVal : PyVal → Bool
  | .vnone => false
  | .vstr s => !(s == "")
  | _ => true

/-- The byte-order mark, U+FEFF. -/
def bomChar : Char := '\uFEFF'

/-- The byte-order mark as a one-character string (the BOM literal of the source). -/
def bomStr : String := "\uFEFF"

/-- One probe of `_pick`: `name in row and row[name] not in (None, "")`,
returning the value on success. -/
def pickKey (row : Row) (k : String) : Option PyVal :=
  match row.lookup k with
  | some v => if nonEmptyVal v then some v else none
  | none => none

/-- `_pick(row, *names, default)` from `src/transform.py`: for each candidate
name in order, probe the plain name, then the name prefixed with the
byte-order mark; the first usable (non-`None`, non-empty) value wins; the
default is returned when every probe fails. -/
def pick (row : Row) : List String → PyVal → PyVal
  | [], d => d
  | n :: rest, d =>
    match pickKey row n with
    | some v => v
    | none =>
      match pickKey row (bomStr ++ n) with
      | some w => w
      | none => pick row rest d

/-- Whether a key is present in the row with a usable value. -/
def presentNonEmpty (row : Row) (k : String) : Bool :=
  (pickKey row k).isSome

/-- Modelled from the spec (§4.1, for the refinement claim C5): "return the
value of the first candidate that is present in the record AND whose value is
neither absent nor the empty string; if none match, return a caller-supplied
default" — the byte-order-mark probing is deliberately absent here. -/
def specPick (row : Row) : List String → PyVal → PyVal
  | [], d => d
  | n :: rest, d =>
    match row.lookup n with
    | some v => if nonEmptyVal v then v else specPick row rest d
    | none => specPick row rest d

/-- `OUTPUT_FIELDS` from `src/transform.py`. -/
def OUTPUT_FIELDS : List String :=
  [ "track_name_clean", "artists_clean", "Album", "Genre", "duration_minutes",
    "Popularity", "popularity_tier", "Danceability", "danceability_label",
    "Energy", "energy_label", "explicit_label" ]

/-- How a nullable float lands in the output dict: `None` or a float. -/
def optToPyVal : Option ℚ → PyVal
  | none => .vnone
  | some q => .vfloat q

/-- `_transform_row` from `src/transform.py`: resolve each logical field with
`_pick`, derive the numeric fields and labels, and build the twelve-key
normalized record (an association list in the dict-literal order). -/
def transform_row (row : Row) : List (String × PyVal) :=
  let track_name := pick row ["song", "track_name", "name"] (.vstr (""))
  let artist := pick row ["Artist(s)", "artists", "artist_name", "artist"] (.vstr (""))
  let album := pick row ["Album", "album", "album_name"] (.vstr (""))
  let genre := pick row ["Genre", "genre", "track_genre"] (.vstr (""))
  let length_val := pick row ["Length", "duration", "duration_ms"] (.vstr (""))
  let duration_minutes := parse_duration length_val
  let popularity := safe_float (pick row ["Popularity", "popularity"] (.vstr ("")))
  let dance := safe_float (pick row ["Danceability", "danceability"] (.vstr ("")))
  let energy := safe_float (pick row ["Energy", "energy"] (.vstr ("")))
  let explicit_raw := pick row ["Explicit", "explicit"] (.vstr (""))
  [ ("track_name_clean", .vstr (pyStrip (pyStr track_name))),
    ("artists_clean", .vstr (pyStrip (pyStr artist))),
    ("Album", .vstr (pyStrip (pyStr album))),
    ("Genre", .vstr (pyLower (pyStrip (pyStr genre)))),
    ("duration_minutes", optToPyVal duration_minutes),
    ("Popularity", optToPyVal popularity),
    ("popularity_tier", .vstr (popularity_tier popularity)),
    ("Danceability", optToPyVal dance),
    ("danceability_label", .vstr (danceability_label dance)),
    ("Energy", optToPyVal energy),
    ("energy_label", .vstr (energy_label energy)),
    ("explicit_label", .vstr (explicit_label explicit_raw)) ]

/-- Value stored in a produced record under a given output key. -/
def valueAt (out : List (String × PyVal)) (k : String) : Option PyVal :=
  out.lookup k

/-- Whether a string carries no surrounding whitespace: its first and last
characters (when any) are not whitespace. -/
def noEdgeWs (s : String) : Bool :=
  s.data.head?.all (fun c => !isPyWs c) && s.data.getLast?.all (fun c => !isPyWs c)

/-! ### Helper lemmas -/

theorem head?_dropWhile_not (p : α → Bool) (l : List α) (c : α)
    (h : (l.dropWhile p).head? = some c) : p c = false := by
  induction l with
  | nil => simp [List.dropWhile] at h
  | cons a t ih =>
    by_cases hp : p a
    · simp [List.dropWhile, hp] at h; exact ih h
    · simp [List.dropWhile, hp] at h; subst h; simpa using hp

theorem noEdgeWs_stripList (l : List Char) : noEdgeWs ⟨stripList l⟩ = true := by
  unfold noEdgeWs stripList
  rw [Bool.and_eq_true]
  constructor
  · cases hh : (List.rdropWhile isPyWs (l.dropWhile isPyWs)).head? with
    | none => simp [hh]
    | some c =>
      obtain ⟨t, ht⟩ := List.rdropWhile_prefix isPyWs (l.dropWhile isPyWs)
      have hne : List.rdropWhile isPyWs (l.dropWhile isPyWs) ≠ [] := by
        intro hc; rw [hc] at hh; simp at hh
      have hm : (l.dropWhile isPyWs).head? = some c := by
        rw [← ht]
        cases he : List.rdropWhile isPyWs (l.dropWhile isPyWs) with
        | nil => exact absurd he hne
        | cons a u =>
          rw [he] at hh
          simp at hh
          simp [hh]
      have := head?_dropWhile_not isPyWs l c hm
      simp [hh, this]
  · cases hh : (List.rdropWhile isPyWs (l.dropWhile isPyWs)).getLast? with
    | none => simp [hh]
    | some c =>
      have hne : List.rdropWhile isPyWs (l.dropWhile isPyWs) ≠ [] := by
        intro hc; rw [hc] at hh; simp at hh
      have hlast := List.rdropWhile_last_not isPyWs (l.dropWhile isPyWs) hne
      rw [List.getLast?_eq_getLast _ hne] at hh
      have hc : (List.rdropWhile isPyWs (l.dropWhile isPyWs)).getLast hne = c :=
        Option.some.inj hh
      rw [hc] at hlast
      simp [hh, Bool.not_eq_true] at hlast ⊢
      exact hlast

theorem noEdgeWs_pyStrip (s : String) : noEdgeWs (pyStrip s) = true :=
  noEdgeWs_stripList s.data

theorem toNat_pyCharLower (c : Char) :
    (pyCharLower c).toNat = if 65 ≤ c.toNat ∧ c.toNat ≤ 90 then c.toNat + 32 else c.toNat := by
  unfold pyCharLower
  split
  · rename_i h
    show (Char.ofNat (c.toNat + 32)).toNat = c.toNat + 32
    unfold Char.ofNat
    rw [dif_pos (Or.inl (by omega : c.toNat + 32 < 55296))]
    simp [Char.ofNatAux, Char.toNat, UInt32.toNat, BitVec.toNat_ofNatLt]
  · rfl

theorem pyCharLower_idem (c : Char) : pyCharLower (pyCharLower c) = pyCharLower c := by
  have h1 := toNat_pyCharLower c
  conv_lhs => rw [pyCharLower.eq_def]
  by_cases h : 65 ≤ c.toNat ∧ c.toNat ≤ 90
  · rw [if_pos h] at h1
    rw [if_neg (by omega)]
  · rw [if_neg h] at h1
    rw [if_neg (by omega)]

theorem isPyWs_pyCharLower (c : Char) : isPyWs (pyCharLower c) = isPyWs c := by
  have h1 := toNat_pyCharLower c
  by_cases h : 65 ≤ c.toNat ∧ c.toNat ≤ 90
  · rw [if_pos h] at h1
    have e1 : isPyWs (pyCharLower c) = false := by simp [isPyWs]; omega
    have e2 : isPyWs c = false := by simp [isPyWs]; omega
    rw [e1, e2]
  · rw [if_neg h] at h1
    have : pyCharLower c = c := by unfold pyCharLower; rw [if_neg h]
    rw [this]

theorem pyLower_idem (s : String) : pyLower (pyLower s) = pyLower s := by
  unfold pyLower
  refine congrArg String.mk ?_
  show (s.data.map pyCharLower).map pyCharLower = s.data.map pyCharLower
  rw [List.map_map]
  exact List.map_congr_left (fun a _ => pyCharLower_idem a)

theorem noEdgeWs_pyLower (s : String) : noEdgeWs (pyLower s) = noEdgeWs s := by
  unfold noEdgeWs pyLower
  show ((s.data.map pyCharLower).head?.all _ && (s.data.map pyCharLower).getLast?.all _) = _
  rw [List.head?_map, List.getLast?_map]
  cases s.data.head? <;> cases s.data.getLast? <;>
    simp [Option.all, isPyWs_pyCharLower]

theorem bom_append_head (n : String) : (bomStr ++ n).data.head? = some bomChar := by
  obtain ⟨l⟩ := n
  rfl

theorem lookup_bom_none (row : Row)
    (hb : ∀ p ∈ row, p.1.data.head? ≠ some bomChar) (n : String) :
    row.lookup (bomStr ++ n) = none := by
  induction row with
  | nil => rfl
  | cons p t ih =>
    have h1 : (bomStr ++ n == p.1) = false := by
      refine beq_eq_false_iff_ne.mpr ?_
      intro he
      refine hb p (List.mem_cons_self p t) ?_
      rw [← he]
      exact bom_append_head n
    show List.lookup (bomStr ++ n) (p :: t) = none
    rw [List.lookup_cons]
    rw [h1]
    exact ih (fun q hq => hb q (List.mem_cons_of_mem p hq))

theorem pick_nil (row : Row) (d : PyVal) : pick row [] d = d := rfl

theorem pick_cons (row : Row) (n : String) (rest : List String) (d : PyVal) :
    pick row (n :: rest) d =
      match pickKey row n with
      | some v => v
      | none =>
        match pickKey row (bomStr ++ n) with
        | some w => w
        | none => pick row rest d := rfl

theorem specPick_cons (row : Row) (n : String) (rest : List String) (d : PyVal) :
    specPick row (n :: rest) d =
      match row.lookup n with
      | some v => if nonEmptyVal v then v else specPick row rest d
      | none => specPick row rest d := rfl

/-! ### Claim theorems -/

/-- C1: for every RawRecord (including the empty mapping), `_transform_row`
returns (without any failure path) a record whose key list is exactly the
twelve canonical field names, which are exactly `OUTPUT_FIELDS`. -/
theorem transform_row_total_twelve_keys (row : Row) :
    (transform_row row).map Prod.fst
      = ["track_name_clean", "artists_clean", "Album", "Genre", "duration_minutes",
         "Popularity", "popularity_tier", "Danceability", "danceability_label",
         "Energy", "energy_label", "explicit_label"]
    ∧ (transform_row row).map Prod.fst = OUTPUT_FIELDS :=
  ⟨rfl, rfl⟩

set_option maxRecDepth 8000 in
/-- C2: `_parse_duration` round-trip examples: `"3:15"` is 3.25 minutes,
`"00:03:30"` is 3.5, `"4.5"` is 4.5, blank and `None` and `"abcd"` give no
value, and `"250000"` parses as 250000.0 minutes by the plain-numeric rule
(the direct float parse takes precedence over the milliseconds heuristic). -/
theorem parse_duration_examples :
    parse_duration (.vstr ("3:15")) = some (13/4)
    ∧ parse_duration (.vstr ("00:03:30")) = some (7/2)
    ∧ parse_duration (.vstr ("4.5")) = some (9/2)
    ∧ parse_duration (.vstr ("  ")) = none
    ∧ parse_duration .vnone = none
    ∧ parse_duration (.vstr ("abcd")) = none
    ∧ parse_duration (.vstr ("250000")) = some 250000 := by
  refine ⟨?_, ?_, ?_, rfl, rfl, rfl, by with_unfolding_all rfl⟩ <;> with_unfolding_all decide

/-- C9: the milliseconds branch of `_parse_duration` is unreachable: on every
input the parser agrees with the variant whose third (milliseconds-magnitude)
attempt is removed, because that branch re-runs the identical float parse that
has just failed. -/
theorem parse_duration_ms_branch_unreachable (v : PyVal) :
    parse_duration v = parse_duration_no_ms v := by
  by_cases h0 : v = .vnone
  · simp [parse_duration, parse_duration_no_ms, h0]
  · simp only [parse_duration, parse_duration_no_ms, if_neg h0]
    by_cases h1 : pyStrip (pyStr v) = ""
    · simp [h1]
    · simp only [if_neg h1]
      cases h2 : colonParse (pyStrip (pyStr v)) with
      | some r => simp
      | none =>
        cases h3 : pyFloat? (pyStrip (pyStr v)) with
        | some f => simp [h3]
        | none => simp [h3]

/-- C3: categorizer boundary behaviour: the lower bound of each band is inclusive,
bands are checked high-to-low, a null input gives `"Unknown"`, and values
below the lowest band give `"Low"`; concretely popularity 70 is `"High"`,
40 is `"Medium"`, 39.999 is `"Low"`, with the same pattern at 75/50 for
danceability and 70/40 for energy. -/
theorem categorizer_boundaries :
    (popularity_tier (some 70) = "High" ∧ popularity_tier (some 40) = "Medium"
      ∧ popularity_tier (some (39999/1000)) = "Low"
      ∧ popularity_tier (some (69999/1000)) = "Medium"
      ∧ popularity_tier none = "Unknown")
    ∧ (danceability_label (some 75) = "Very Danceable"
      ∧ danceability_label (some 50) = "Danceable"
      ∧ danceability_label (some (49999/1000)) = "Low"
      ∧ danceability_label (some (74999/1000)) = "Danceable"
      ∧ danceability_label none = "Unknown")
    ∧ (energy_label (some 70) = "High" ∧ energy_label (some 40) = "Medium"
      ∧ energy_label (some (39999/1000)) = "Low"
      ∧ energy_label (some (69999/1000)) = "Medium"
      ∧ energy_label none = "Unknown")
    ∧ (∀ q : ℚ, 70 ≤ q → popularity_tier (some q) = "High")
    ∧ (∀ q : ℚ, 40 ≤ q → q < 70 → popularity_tier (some q) = "Medium")
    ∧ (∀ q : ℚ, q < 40 → popularity_tier (some q) = "Low")
    ∧ (∀ q : ℚ, 75 ≤ q → danceability_label (some q) = "Very Danceable")
    ∧ (∀ q : ℚ, 50 ≤ q → q < 75 → danceability_label (some q) = "Danceable")
    ∧ (∀ q : ℚ, q < 50 → danceability_label (some q) = "Low")
    ∧ (∀ q : ℚ, 70 ≤ q → energy_label (some q) = "High")
    ∧ (∀ q : ℚ, 40 ≤ q → q < 70 → energy_label (some q) = "Medium")
    ∧ (∀ q : ℚ, q < 40 → energy_label (some q) = "Low") := by
  refine ⟨by with_unfolding_all decide, by with_unfolding_all decide,
    by with_unfolding_all decide, ?_, ?_, ?_, ?_, ?_, ?_, ?_, ?_, ?_⟩
  · intro q h; simp only [popularity_tier]; rw [if_pos h]
  · intro q h1 h2; simp only [popularity_tier]; rw [if_neg (not_le.mpr h2), if_pos h1]
  · intro q h; simp only [popularity_tier]
    rw [if_neg (not_le.mpr (by linarith)), if_neg (not_le.mpr h)]
  · intro q h; simp only [danceability_label]; rw [if_pos h]
  · intro q h1 h2; simp only [danceability_label]; rw [if_neg (not_le.mpr h2), if_pos h1]
  · intro q h; simp only [danceability_label]
    rw [if_neg (not_le.mpr (by linarith)), if_neg (not_le.mpr h)]
  · intro q h; simp only [energy_label]; rw [if_pos h]
  · intro q h1 h2; simp only [energy_label]; rw [if_neg (not_le.mpr h2), if_pos h1]
  · intro q h; simp only [energy_label]
    rw [if_neg (not_le.mpr (by linarith)), if_neg (not_le.mpr h)]

/-- Witness for C3: the banded clauses applied at concrete inputs. -/
theorem categorizer_boundaries_witness :
    popularity_tier (some 85) = "High" ∧ popularity_tier (some 55) = "Medium"
    ∧ popularity_tier (some 10) = "Low"
    ∧ danceability_label (some 80) = "Very Danceable"
    ∧ danceability_label (some 60) = "Danceable" ∧ danceability_label (some 5) = "Low"
    ∧ energy_label (some 95) = "High" ∧ energy_label (some 45) = "Medium"
    ∧ energy_label (some 3) = "Low" := by
  obtain ⟨-, -, -, hpH, hpM, hpL, hdH, hdM, hdL, heH, heM, heL⟩ := categorizer_boundaries
  exact ⟨hpH 85 (by norm_num), hpM 55 (by norm_num) (by norm_num), hpL 10 (by norm_num),
    hdH 80 (by norm_num), hdM 60 (by norm_num) (by norm_num), hdL 5 (by norm_num),
    heH 95 (by norm_num), heM 45 (by norm_num) (by norm_num), heL 3 (by norm_num)⟩

/-- C4: `_explicit_label` maps null to `"Clean"`; a numeric input to
`"Explicit"` iff non-zero; and a string input, after trimming and
case-folding, to `"Explicit"` exactly on the truthy set, with `"Clean"` for
the falsy set and for any other string — with no failure branch. -/
theorem explicit_label_cases :
    explicit_label .vnone = "Clean"
    ∧ (∀ n : ℤ, n ≠ 0 → explicit_label (.vint n) = "Explicit")
    ∧ explicit_label (.vint 0) = "Clean"
    ∧ (∀ q : ℚ, q ≠ 0 → explicit_label (.vfloat q) = "Explicit")
    ∧ explicit_label (.vfloat 0) = "Clean"
    ∧ (∀ s : String, pyLower (pyStrip s) ∈ explicitTrueStrs →
        explicit_label (.vstr s) = "Explicit")
    ∧ (∀ s : String, pyLower (pyStrip s) ∈ explicitFalseStrs →
        explicit_label (.vstr s) = "Clean")
    ∧ (∀ s : String, pyLower (pyStrip s) ∉ explicitTrueStrs →
        explicit_label (.vstr s) = "Clean")
    ∧ explicit_label (.vint 1) = "Explicit" ∧ explicit_label (.vstr ("Yes")) = "Explicit"
    ∧ explicit_label (.vstr ("maybe")) = "Clean" := by
  refine ⟨rfl, ?_, by decide, ?_, by with_unfolding_all decide, ?_, ?_, ?_,
    by decide, by decide, by decide⟩
  · intro n h; simp [explicit_label, h]
  · intro q h; simp [explicit_label, h]
  · intro s h; simp only [explicit_label]; rw [if_pos h]
  · intro s h
    have hnt : pyLower (pyStrip s) ∉ explicitTrueStrs := by
      intro hc
      simp [explicitFalseStrs] at h
      simp [explicitTrueStrs] at hc
      rcases h with h|h|h|h|h|h <;> rw [h] at hc <;> simp at hc
    simp only [explicit_label]; rw [if_neg hnt, if_pos h]
  · intro s h; simp only [explicit_label]; rw [if_neg h]
    split <;> rfl

/-- Witness for C4: the quantified clauses applied at concrete inputs. -/
theorem explicit_label_cases_witness :
    explicit_label (.vint 5) = "Explicit" ∧ explicit_label (.vfloat (1/2)) = "Explicit"
    ∧ explicit_label (.vstr (" TRUE ")) = "Explicit" ∧ explicit_label (.vstr (" No ")) = "Clean"
    ∧ explicit_label (.vstr ("weird")) = "Clean" := by
  obtain ⟨-, hint, -, hq, -, htrue, hfalse, hother, -, -, -⟩ := explicit_label_cases
  exact ⟨hint 5 (by decide), hq (1/2) (by norm_num), htrue (" TRUE ") (by decide),
    hfalse (" No ") (by decide), hother ("weird") (by decide)⟩

/-- C5: on records with no byte-order-mark-prefixed keys, `_pick` returns the
value of the first candidate present with a non-`None`, non-empty value, and
the caller-supplied default when no candidate matches (the behaviour the spec
describes, captured by `specPick`); in particular, with both `"song"` and
`"track_name"` non-empty, the `["song", "track_name", "name"]` resolver
returns the `"song"` value. -/
theorem pick_first_nonempty_refines_spec :
    (∀ (row : Row) (names : List String) (d : PyVal),
        (∀ p ∈ row, p.1.data.head? ≠ some bomChar) →
        pick row names d = specPick row names d)
    ∧ pick [("song", .vstr ("A")), ("track_name", .vstr ("B"))]
        ["song", "track_name", "name"] (.vstr ("")) = .vstr ("A") := by
  constructor
  · intro row names d hb
    induction names with
    | nil => rfl
    | cons n rest ih =>
      have hbom : row.lookup (bomStr ++ n) = none := lookup_bom_none row hb n
      rw [pick_cons, specPick_cons]
      unfold pickKey
      rw [hbom]
      cases hl : row.lookup n with
      | none => simpa using ih
      | some v =>
        by_cases hv : nonEmptyVal v
        · simp [hv]
        · simpa [hv] using ih
  · decide

/-- Witness for C5: the refinement applied to a concrete BOM-free record. -/
theorem pick_first_nonempty_refines_spec_witness :
    pick [("song", .vstr ("A"))] ["song", "name"] (.vstr (""))
      = specPick [("song", .vstr ("A"))] ["song", "name"] (.vstr ("")) :=
  pick_first_nonempty_refines_spec.1 [("song", .vstr ("A"))] ["song", "name"] (.vstr (""))
    (by decide)

/-- C6: byte-order-mark tolerance: when no candidate has a usable plain name in
the record and no other candidate has a usable BOM-prefixed variant, a usable
value stored under the BOM-prefixed variant of one candidate is still
resolved to by `_pick`. -/
theorem pick_bom_tolerance (row : Row) (names : List String) (d : PyVal)
    (n : String) (v : PyVal) (hmem : n ∈ names)
    (hplain : ∀ m ∈ names, presentNonEmpty row m = false)
    (hbomOther : ∀ m ∈ names, m ≠ n → presentNonEmpty row (bomStr ++ m) = false)
    (hn : pickKey row (bomStr ++ n) = some v) :
    pick row names d = v := by
  induction names with
  | nil => simp at hmem
  | cons m rest ih =>
    rw [pick_cons]
    have hm : pickKey row m = none := by
      have := hplain m (List.mem_cons_self m rest)
      unfold presentNonEmpty at this
      exact Option.not_isSome_iff_eq_none.mp (by simp [this])
    rw [hm]
    by_cases hmn : m = n
    · subst hmn
      rw [hn]
    · have hb : pickKey row (bomStr ++ m) = none := by
        have := hbomOther m (List.mem_cons_self m rest) hmn
        unfold presentNonEmpty at this
        exact Option.not_isSome_iff_eq_none.mp (by simp [this])
      rw [hb]
      have hmem2 : n ∈ rest := by
        cases List.mem_cons.mp hmem with
        | inl h => exact absurd h.symm hmn
        | inr h => exact h
      exact ih hmem2 (fun x hx => hplain x (List.mem_cons_of_mem m hx))
        (fun x hx hxn => hbomOther x (List.mem_cons_of_mem m hx) hxn)

/-- Witness for C6: a record whose only key is the BOM-prefixed `"song"`
still resolves the track name. -/
theorem pick_bom_tolerance_witness :
    pick [(bomStr ++ "song", .vstr ("X"))] ["song", "track_name", "name"] (.vstr (""))
      = .vstr ("X") :=
  pick_bom_tolerance [(bomStr ++ "song", .vstr ("X"))] ["song", "track_name", "name"]
    (.vstr ("")) "song" (.vstr ("X")) (by decide) (by decide) (by decide) (by decide)

/-- C10: probing order inside `_pick`: for the head candidate the plain name
is probed before its BOM-prefixed variant (a usable plain value wins
immediately), and a usable value under the BOM-prefixed variant of the head
candidate wins over everything contributed by later candidates — in
particular over the plain name of a later candidate present in the record. -/
theorem pick_probe_order :
    (∀ (row : Row) (n : String) (rest : List String) (d v : PyVal),
        row.lookup n = some v → nonEmptyVal v = true →
        pick row (n :: rest) d = v)
    ∧ (∀ (row : Row) (n : String) (rest : List String) (d v : PyVal),
        presentNonEmpty row n = false → pickKey row (bomStr ++ n) = some v →
        pick row (n :: rest) d = v) := by
  constructor
  · intro row n rest d v hl hv
    simp [pick_cons, pickKey, hl, hv]
  · intro row n rest d v hplain hbom
    have hm : pickKey row n = none := by
      unfold presentNonEmpty at hplain
      exact Option.not_isSome_iff_eq_none.mp (by simp [hplain])
    simp [pick_cons, hm, hbom]

/-- Witness for C10: the plain key beats its own BOM variant, and the first
BOM variant of the first candidate beats the plain key of the second. -/
theorem pick_probe_order_witness :
    pick [("song", .vstr ("A")), (bomStr ++ "song", .vstr ("B"))] ["song", "track_name"]
        (.vstr ("")) = .vstr ("A")
    ∧ pick [(bomStr ++ "song", .vstr ("X")), ("track_name", .vstr ("Y"))]
        ["song", "track_name"] (.vstr ("")) = .vstr ("X") :=
  ⟨pick_probe_order.1 [("song", .vstr ("A")), (bomStr ++ "song", .vstr ("B"))] "song"
      ["track_name"] (.vstr ("")) (.vstr ("A")) (by decide) (by decide),
   pick_probe_order.2 [(bomStr ++ "song", .vstr ("X")), ("track_name", .vstr ("Y"))] "song"
      ["track_name"] (.vstr ("")) (.vstr ("X")) (by decide) (by decide)⟩

/-- C7: in every record produced by `_transform_row`, each numeric derived
field (duration_minutes, Popularity, Danceability, Energy) is the null marker
exactly when its raw input is missing or unparsable, and carries the parsed
float otherwise — in particular a raw input parsing to zero yields the float
`0.0`, never the null marker, so absence and zero are never conflated. -/
theorem numeric_fields_absent_vs_zero (row : Row) :
    (parse_duration (pick row ["Length", "duration", "duration_ms"] (.vstr (""))) = none →
      valueAt (transform_row row) "duration_minutes" = some .vnone)
    ∧ (∀ q : ℚ,
        parse_duration (pick row ["Length", "duration", "duration_ms"] (.vstr (""))) = some q →
        valueAt (transform_row row) "duration_minutes" = some (.vfloat q))
    ∧ (safe_float (pick row ["Popularity", "popularity"] (.vstr (""))) = none →
      valueAt (transform_row row) "Popularity" = some .vnone)
    ∧ (∀ q : ℚ, safe_float (pick row ["Popularity", "popularity"] (.vstr (""))) = some q →
        valueAt (transform_row row) "Popularity" = some (.vfloat q))
    ∧ (safe_float (pick row ["Danceability", "danceability"] (.vstr (""))) = none →
      valueAt (transform_row row) "Danceability" = some .vnone)
    ∧ (∀ q : ℚ, safe_float (pick row ["Danceability", "danceability"] (.vstr (""))) = some q →
        valueAt (transform_row row) "Danceability" = some (.vfloat q))
    ∧ (safe_float (pick row ["Energy", "energy"] (.vstr (""))) = none →
      valueAt (transform_row row) "Energy" = some .vnone)
    ∧ (∀ q : ℚ, safe_float (pick row ["Energy", "energy"] (.vstr (""))) = some q →
        valueAt (transform_row row) "Energy" = some (.vfloat q))
    ∧ PyVal.vnone ≠ PyVal.vfloat 0 := by
  have e1 : valueAt (transform_row row) "duration_minutes"
      = some (optToPyVal (parse_duration (pick row ["Length", "duration", "duration_ms"]
        (.vstr (""))))) := rfl
  have e2 : valueAt (transform_row row) "Popularity"
      = some (optToPyVal (safe_float (pick row ["Popularity", "popularity"] (.vstr (""))))) := rfl
  have e3 : valueAt (transform_row row) "Danceability"
      = some (optToPyVal (safe_float (pick row ["Danceability", "danceability"]
        (.vstr (""))))) := rfl
  have e4 : valueAt (transform_row row) "Energy"
      = some (optToPyVal (safe_float (pick row ["Energy", "energy"] (.vstr (""))))) := rfl
  refine ⟨fun h => by rw [e1, h]; rfl, fun q h => by rw [e1, h]; rfl,
    fun h => by rw [e2, h]; rfl, fun q h => by rw [e2, h]; rfl,
    fun h => by rw [e3, h]; rfl, fun q h => by rw [e3, h]; rfl,
    fun h => by rw [e4, h]; rfl, fun q h => by rw [e4, h]; rfl, by decide⟩

/-- Witness for C7: a concrete record with a missing duration, an unparsable
popularity, a zero danceability and a parsable energy. -/
theorem numeric_fields_absent_vs_zero_witness :
    valueAt (transform_row [("popularity", .vstr ("abc")), ("Danceability", .vstr ("0")),
        ("Energy", .vstr ("5"))]) "duration_minutes" = some .vnone
    ∧ valueAt (transform_row [("popularity", .vstr ("abc")), ("Danceability", .vstr ("0")),
        ("Energy", .vstr ("5"))]) "Popularity" = some .vnone
    ∧ valueAt (transform_row [("popularity", .vstr ("abc")), ("Danceability", .vstr ("0")),
        ("Energy", .vstr ("5"))]) "Danceability" = some (.vfloat 0)
    ∧ valueAt (transform_row [("popularity", .vstr ("abc")), ("Danceability", .vstr ("0")),
        ("Energy", .vstr ("5"))]) "Energy" = some (.vfloat 5) := by
  obtain ⟨h1, -, h3, -, -, h6, -, h8, -⟩ :=
    numeric_fields_absent_vs_zero [("popularity", .vstr ("abc")),
      ("Danceability", .vstr ("0")), ("Energy", .vstr ("5"))]
  exact ⟨h1 rfl, h3 rfl, h6 0 (by with_unfolding_all rfl), h8 5 (by with_unfolding_all rfl)⟩

/-- C8: in every record produced by `_transform_row`, the four string fields
carry no surrounding whitespace, and the Genre value is additionally
lowercased (lowercasing it again changes nothing). -/
theorem string_fields_trimmed_genre_lowercased (row : Row) :
    (∃ t, valueAt (transform_row row) "track_name_clean" = some (.vstr t)
        ∧ noEdgeWs t = true)
    ∧ (∃ a, valueAt (transform_row row) "artists_clean" = some (.vstr a)
        ∧ noEdgeWs a = true)
    ∧ (∃ b, valueAt (transform_row row) "Album" = some (.vstr b)
        ∧ noEdgeWs b = true)
    ∧ (∃ g, valueAt (transform_row row) "Genre" = some (.vstr g)
        ∧ noEdgeWs g = true ∧ pyLower g = g) := by
  refine ⟨⟨pyStrip (pyStr (pick row ["song", "track_name", "name"] (.vstr ("")))),
      rfl, noEdgeWs_pyStrip _⟩,
    ⟨pyStrip (pyStr (pick row ["Artist(s)", "artists", "artist_name", "artist"] (.vstr ("")))),
      rfl, noEdgeWs_pyStrip _⟩,
    ⟨pyStrip (pyStr (pick row ["Album", "album", "album_name"] (.vstr ("")))),
      rfl, noEdgeWs_pyStrip _⟩,
    ⟨pyLower (pyStrip (pyStr (pick row ["Genre", "genre", "track_genre"] (.vstr (""))))),
      rfl, ?_, pyLower_idem _⟩⟩
  rw [noEdgeWs_pyLower]
  exact noEdgeWs_pyStrip _
